import Mathlib

/-!
Verification of the smoltbot zkVM verdict pipeline.

This file is a shallow embedding, in Lean 4, of the deterministic core of
the repository:

* `src/zkvm/core/src/types.rs` — the canonical data model (concern
  categories, severities, verdicts, actions, concern records, guest
  input/output records);
* `src/zkvm/core/src/verdict.rs` — `derive_verdict` and
  `map_verdict_to_action`;
* `src/zkvm/core/src/hash.rs` — `hash_concerns`: evidence truncation,
  canonical JSON serialization and SHA-256 fingerprinting;
* `src/zkvm/methods/guest/src/main.rs` — the guest pipeline that
  re-derives the verdict and commits a `GuestOutput`;
* `src/zkvm/host/src/server.rs` — the authentication gate of the proving
  service (`check_auth`, `handle_prove`, `handle_verify`) and the
  image-id hex encoding;
* `src/zkvm/wasm-verifier/src/lib.rs` — `decode_image_id`.

Rust strings are modelled as Lean `String`; Rust's byte-level operations
on them (`str::len`, byte-range slicing) are modelled through an explicit
UTF-8 encoder so that byte counts, character boundaries and the panics of
out-of-boundary slicing are all visible.  Machine integers are modelled as
`Nat` with explicit reduction modulo 2^32 where overflow matters.
Fallible or panicking code returns `Option`.
-/

set_option maxRecDepth 100000

namespace Smoltbot

/-! ## Canonical data model (`core/src/types.rs`) -/

/-- Concern categories (`ConcernCategory` in `types.rs`); wire form is the
snake_case literal. -/
inductive ConcernCategory where
  | PromptInjection
  | ValueMisalignment
  | AutonomyViolation
  | ReasoningCorruption
  | DeceptiveReasoning
  | UndeclaredIntent
deriving DecidableEq, Repr

/-- Severity levels (`Severity` in `types.rs`); wire form is lowercase. -/
inductive Severity where
  | Low
  | Medium
  | High
  | Critical
deriving DecidableEq, Repr

/-- A single concern (`Concern` in `types.rs`). -/
structure Concern where
  category : ConcernCategory
  severity : Severity
  description : String
  evidence : String
deriving DecidableEq, Repr

/-- Integrity verdict (`Verdict` in `types.rs`). -/
inductive Verdict where
  | Clear
  | ReviewNeeded
  | BoundaryViolation
deriving DecidableEq, Repr

/-- Recommended action (`Action` in `types.rs`). -/
inductive Action where
  | Continue
  | LogAndContinue
  | PauseForReview
  | DenyAndEscalate
deriving DecidableEq, Repr

/-- The LLM analysis response (`AnalysisResponse` in `types.rs`).  The
`verdict` field is the model's stated verdict, which the guest re-derives
instead of trusting. -/
structure AnalysisResponse where
  verdict : String
  concerns : List Concern
  confidence : Float
  reasoning_summary : String

/-- Input to the zkVM guest program (`GuestInput` in `types.rs`). -/
structure GuestInput where
  analysis_json : String
  thinking_hash : String
  card_hash : String
  values_hash : String
  model : String

/-- Output committed by the guest program (`GuestOutput` in `types.rs`). -/
structure GuestOutput where
  verdict : Verdict
  action : Action
  concerns_hash : String
  thinking_hash : String
  card_hash : String
  values_hash : String
  model : String
deriving DecidableEq, Repr

/-- `MAX_EVIDENCE_LENGTH` from `types.rs`. -/
def MAX_EVIDENCE_LENGTH : Nat := 200

/-! ## Verdict engine (`core/src/verdict.rs`) -/

/-- The loop body of `derive_verdict` (`verdict.rs` lines 20-56): the Rust
function scans the slice once, carrying the mutable flag
`has_medium_plus`, and early-returns `BoundaryViolation` on any critical
concern or any high-severity concern in a boundary category. -/
def derive_verdict_loop : List Concern → Bool → Verdict
  | [], has_medium_plus =>
    if has_medium_plus then Verdict.ReviewNeeded else Verdict.Clear
  | concern :: rest, has_medium_plus =>
    if concern.severity = Severity.Critical then Verdict.BoundaryViolation
    else if concern.severity = Severity.High then
      match concern.category with
      | ConcernCategory.PromptInjection
      | ConcernCategory.DeceptiveReasoning => Verdict.BoundaryViolation
      | ConcernCategory.ValueMisalignment => Verdict.BoundaryViolation
      | _ => derive_verdict_loop rest true
    else if concern.severity = Severity.Medium then
      derive_verdict_loop rest true
    else
      derive_verdict_loop rest has_medium_plus

/-- `derive_verdict` (`verdict.rs` lines 20-56): the flag starts `false`. -/
def derive_verdict (concerns : List Concern) : Verdict :=
  derive_verdict_loop concerns false

/-- A concern meeting the boundary-violation criteria of `derive_verdict`:
critical severity, or high severity in one of the three boundary
categories. -/
def isBoundaryConcern (c : Concern) : Bool :=
  c.severity = Severity.Critical ||
    (c.severity = Severity.High &&
      (c.category = ConcernCategory.PromptInjection ||
        c.category = ConcernCategory.DeceptiveReasoning ||
        c.category = ConcernCategory.ValueMisalignment))

/-- A concern whose severity is medium or high. -/
def isMediumOrHigh (c : Concern) : Bool :=
  c.severity = Severity.Medium || c.severity = Severity.High

/-- `map_verdict_to_action` (`verdict.rs` lines 65-78). -/
def map_verdict_to_action (verdict : Verdict) (concerns : List Concern) :
    Action :=
  match verdict with
  | Verdict.Clear => Action.Continue
  | Verdict.ReviewNeeded => Action.LogAndContinue
  | Verdict.BoundaryViolation =>
    if concerns.any (fun c => c.severity = Severity.Critical) then
      Action.DenyAndEscalate
    else
      Action.PauseForReview

/-- The single-pass loop of `derive_verdict` computes the same verdict as
the declarative three-way rule over the whole list. -/
theorem derive_verdict_loop_spec (cs : List Concern) (acc : Bool) :
    derive_verdict_loop cs acc =
      (if cs.any isBoundaryConcern then Verdict.BoundaryViolation
       else if acc || cs.any isMediumOrHigh then Verdict.ReviewNeeded
       else Verdict.Clear) := by
  induction cs generalizing acc with
  | nil => cases acc <;> simp [derive_verdict_loop]
  | cons c rest ih =>
    cases hsev : c.severity <;> cases hcat : c.category <;>
      cases acc <;>
        simp [derive_verdict_loop, isBoundaryConcern, isMediumOrHigh,
          hsev, hcat, ih]

/-- `derive_verdict` as the declarative three-way rule. -/
theorem derive_verdict_eq (cs : List Concern) :
    derive_verdict cs =
      (if cs.any isBoundaryConcern then Verdict.BoundaryViolation
       else if cs.any isMediumOrHigh then Verdict.ReviewNeeded
       else Verdict.Clear) := by
  have h := derive_verdict_loop_spec cs false
  simpa [derive_verdict] using h

/-- `cs.any isBoundaryConcern` holds exactly when some concern is critical
or some concern is high in a boundary category. -/
theorem any_boundary_iff (cs : List Concern) :
    cs.any isBoundaryConcern = true ↔
      ((∃ c ∈ cs, c.severity = Severity.Critical) ∨
        (∃ c ∈ cs, c.severity = Severity.High ∧
          (c.category = ConcernCategory.PromptInjection ∨
            c.category = ConcernCategory.DeceptiveReasoning ∨
            c.category = ConcernCategory.ValueMisalignment))) := by
  simp only [List.any_eq_true, isBoundaryConcern, Bool.or_eq_true,
    Bool.and_eq_true, decide_eq_true_eq]
  constructor
  · rintro ⟨c, hc, hcrit | ⟨hhigh, hcat⟩⟩
    · exact Or.inl ⟨c, hc, hcrit⟩
    · exact Or.inr ⟨c, hc, hhigh, or_assoc.mp hcat⟩
  · rintro (⟨c, hc, hcrit⟩ | ⟨c, hc, hhigh, hcat⟩)
    · exact ⟨c, hc, Or.inl hcrit⟩
    · exact ⟨c, hc, Or.inr ⟨hhigh, or_assoc.mpr hcat⟩⟩

/-- `cs.any isMediumOrHigh` holds exactly when some concern has severity
medium or high. -/
theorem any_medium_or_high_iff (cs : List Concern) :
    cs.any isMediumOrHigh = true ↔
      (∃ c ∈ cs, c.severity = Severity.Medium ∨
        c.severity = Severity.High) := by
  simp [List.any_eq_true, isMediumOrHigh]

/-- C1.  `derive_verdict` returns `boundary_violation` iff some concern is
critical or some concern is high in a boundary category
(prompt_injection, deceptive_reasoning, value_misalignment); otherwise
`review_needed` iff some concern has severity medium or high (so a high
concern in autonomy_violation, reasoning_corruption or undeclared_intent
alone yields `review_needed`, not `boundary_violation`); otherwise
`clear`. -/
theorem c1_derive_verdict_trichotomy (cs : List Concern) :
    (derive_verdict cs = Verdict.BoundaryViolation ↔
      ((∃ c ∈ cs, c.severity = Severity.Critical) ∨
        (∃ c ∈ cs, c.severity = Severity.High ∧
          (c.category = ConcernCategory.PromptInjection ∨
            c.category = ConcernCategory.DeceptiveReasoning ∨
            c.category = ConcernCategory.ValueMisalignment)))) ∧
    (derive_verdict cs = Verdict.ReviewNeeded ↔
      (¬ ((∃ c ∈ cs, c.severity = Severity.Critical) ∨
        (∃ c ∈ cs, c.severity = Severity.High ∧
          (c.category = ConcernCategory.PromptInjection ∨
            c.category = ConcernCategory.DeceptiveReasoning ∨
            c.category = ConcernCategory.ValueMisalignment))) ∧
        (∃ c ∈ cs, c.severity = Severity.Medium ∨
          c.severity = Severity.High))) ∧
    (derive_verdict cs = Verdict.Clear ↔
      (¬ ((∃ c ∈ cs, c.severity = Severity.Critical) ∨
        (∃ c ∈ cs, c.severity = Severity.High ∧
          (c.category = ConcernCategory.PromptInjection ∨
            c.category = ConcernCategory.DeceptiveReasoning ∨
            c.category = ConcernCategory.ValueMisalignment))) ∧
        ¬ (∃ c ∈ cs, c.severity = Severity.Medium ∨
          c.severity = Severity.High))) := by
  simp only [← any_boundary_iff, ← any_medium_or_high_iff,
    derive_verdict_eq]
  cases hb : cs.any isBoundaryConcern <;>
    cases hm : cs.any isMediumOrHigh <;> simp

/-- C2.  `map_verdict_to_action` maps `clear` to `continue`,
`review_needed` to `log_and_continue`, and `boundary_violation` to
`deny_and_escalate` when some concern is critical and to
`pause_for_review` when none is. -/
theorem c2_map_verdict_to_action_cases (cs : List Concern) :
    map_verdict_to_action Verdict.Clear cs = Action.Continue ∧
    map_verdict_to_action Verdict.ReviewNeeded cs =
      Action.LogAndContinue ∧
    ((∃ c ∈ cs, c.severity = Severity.Critical) →
      map_verdict_to_action Verdict.BoundaryViolation cs =
        Action.DenyAndEscalate) ∧
    (¬ (∃ c ∈ cs, c.severity = Severity.Critical) →
      map_verdict_to_action Verdict.BoundaryViolation cs =
        Action.PauseForReview) := by
  refine ⟨rfl, rfl, ?_, ?_⟩ <;> intro h <;>
    simp only [map_verdict_to_action] <;>
    simp [List.any_eq_true, h]

/-- Witness for C2: the boundary branches at a concrete critical concern
and at the empty list. -/
theorem c2_witness :
    map_verdict_to_action Verdict.BoundaryViolation
        [Concern.mk ConcernCategory.PromptInjection Severity.Critical
          "inj" ""] = Action.DenyAndEscalate ∧
      map_verdict_to_action Verdict.BoundaryViolation [] =
        Action.PauseForReview :=
  ⟨(c2_map_verdict_to_action_cases
      [Concern.mk ConcernCategory.PromptInjection Severity.Critical
        "inj" ""]).2.2.1
      ⟨Concern.mk ConcernCategory.PromptInjection Severity.Critical
        "inj" "", by decide, rfl⟩,
    (c2_map_verdict_to_action_cases []).2.2.2 (by decide)⟩

/-- `List.any` is invariant under permutation. -/
theorem perm_any {α : Type} {l₁ l₂ : List α} (p : α → Bool)
    (h : l₁.Perm l₂) : l₁.any p = l₂.any p := by
  cases hb : l₂.any p
  · rw [List.any_eq_false] at *
    intro x hx
    exact hb x (h.mem_iff.mp hx)
  · rw [List.any_eq_true] at *
    obtain ⟨x, hx, hp⟩ := hb
    exact ⟨x, h.mem_iff.mpr hx, hp⟩

/-- `List.any` after `List.map` tests the composite. -/
theorem any_map_general {α β : Type} (f : α → β) (p : β → Bool) :
    ∀ l : List α, (l.map f).any p = l.any fun a => p (f a)
  | [] => rfl
  | a :: l => by
    simp [List.any_cons, any_map_general f p l]

/-- The (category, severity) pair of a concern. -/
def concernKey (c : Concern) : ConcernCategory × Severity :=
  (c.category, c.severity)

/-- C8.  `derive_verdict` is invariant under permutation of its input;
more precisely the verdict depends only on the multiset of
(category, severity) pairs present: lists whose key multisets agree —
in particular, permutations of one another — get the same verdict. -/
theorem c8_derive_verdict_permutation_invariant (cs cs' : List Concern)
    (h : (cs.map concernKey).Perm (cs'.map concernKey)) :
    derive_verdict cs = derive_verdict cs' := by
  have hB : cs.any isBoundaryConcern = cs'.any isBoundaryConcern := by
    have h1 : ∀ l : List Concern,
        l.any isBoundaryConcern =
          (l.map concernKey).any fun k =>
            k.2 = Severity.Critical ||
              (k.2 = Severity.High &&
                (k.1 = ConcernCategory.PromptInjection ||
                  k.1 = ConcernCategory.DeceptiveReasoning ||
                  k.1 = ConcernCategory.ValueMisalignment)) := by
      intro l
      rw [any_map_general]
      rfl
    rw [h1, h1, perm_any _ h]
  have hM : cs.any isMediumOrHigh = cs'.any isMediumOrHigh := by
    have h1 : ∀ l : List Concern,
        l.any isMediumOrHigh =
          (l.map concernKey).any fun k =>
            k.2 = Severity.Medium || k.2 = Severity.High := by
      intro l
      rw [any_map_general]
      rfl
    rw [h1, h1, perm_any _ h]
  rw [derive_verdict_eq, derive_verdict_eq, hB, hM]

/-- Witness for C8 at a concrete two-element list and its swap. -/
theorem c8_witness :
    derive_verdict
        [Concern.mk ConcernCategory.AutonomyViolation Severity.High "a" "",
         Concern.mk ConcernCategory.ValueMisalignment Severity.Low "b" ""] =
      derive_verdict
        [Concern.mk ConcernCategory.ValueMisalignment Severity.Low "b" "",
         Concern.mk ConcernCategory.AutonomyViolation Severity.High "a" ""] :=
  c8_derive_verdict_permutation_invariant _ _ (List.Perm.swap _ _ _)

/-! ## UTF-8 byte model

Rust's `str::len` is the UTF-8 byte length and `&s[..n]` slices the first
`n` bytes, panicking when `n` is not a character boundary.  We model the
encoding explicitly: `charUtf8` encodes one scalar value, `utf8Len` is
Rust's `len`, and `takeUtf8Bytes` is the byte-range slice `[..n]`
returning `none` where Rust panics. -/

/-- Concatenation of the images of a list under a list-valued function
(Rust's `flat_map` over an iterator, collected). -/
def cflat {α β : Type} (f : α → List β) : List α → List β
  | [] => []
  | a :: l => f a ++ cflat f l

/-- The UTF-8 encoding of one character (scalar value), per RFC 3629. -/
def charUtf8 (c : Char) : List Nat :=
  let n := c.toNat
  if n < 128 then [n]
  else if n < 2048 then [192 + n / 64, 128 + n % 64]
  else if n < 65536 then
    [224 + n / 4096, 128 + n / 64 % 64, 128 + n % 64]
  else
    [240 + n / 262144, 128 + n / 4096 % 64, 128 + n / 64 % 64,
      128 + n % 64]

/-- The number of UTF-8 bytes of one character. -/
def charSize (c : Char) : Nat := (charUtf8 c).length

/-- The UTF-8 byte length of a character sequence (Rust's `str::len`). -/
def utf8Len (l : List Char) : Nat := (cflat charUtf8 l).length

theorem charSize_pos (c : Char) : 0 < charSize c := by
  unfold charSize charUtf8
  dsimp only
  split
  · simp
  · split
    · simp
    · split <;> simp

theorem utf8Len_nil : utf8Len [] = 0 := rfl

theorem utf8Len_cons (c : Char) (l : List Char) :
    utf8Len (c :: l) = charSize c + utf8Len l := by
  simp [utf8Len, cflat, charSize]

/-- The characters spanning exactly the first `n` UTF-8 bytes of `l`:
`none` when `l` has fewer than `n` bytes or byte `n` falls inside a
character — exactly where Rust's `&s[..n]` panics. -/
def takeUtf8Bytes : List Char → Nat → Option (List Char)
  | _, 0 => some []
  | [], _ + 1 => none
  | c :: l, n + 1 =>
    if charSize c ≤ n + 1 then
      (takeUtf8Bytes l (n + 1 - charSize c)).map fun t => c :: t
    else
      none

/-- Evidence truncation as written in `core/src/hash.rs` lines 29-33 and
`methods/guest/src/main.rs` lines 36-40: when `evidence.len()` (UTF-8
bytes) exceeds `MAX_EVIDENCE_LENGTH`, take the byte slice
`[..MAX_EVIDENCE_LENGTH]`; `none` models the slice panic on a
non-boundary cut. -/
def truncEvidence (s : String) : Option String :=
  if MAX_EVIDENCE_LENGTH < utf8Len s.data then
    (takeUtf8Bytes s.data MAX_EVIDENCE_LENGTH).map fun t => String.mk t
  else
    some s

/-- What a successful byte-slice returns: a front segment of the list
spanning exactly `n` bytes. -/
theorem takeUtf8Bytes_sound :
    ∀ (l : List Char) (n : Nat) (t : List Char),
      takeUtf8Bytes l n = some t →
        (∃ rest, l = t ++ rest) ∧ utf8Len t = n := by
  intro l
  induction l with
  | nil =>
    intro n t h
    cases n with
    | zero =>
      simp [takeUtf8Bytes] at h
      subst h
      exact ⟨⟨[], rfl⟩, rfl⟩
    | succ n => simp [takeUtf8Bytes] at h
  | cons c l ih =>
    intro n t h
    cases n with
    | zero =>
      simp [takeUtf8Bytes] at h
      subst h
      exact ⟨⟨c :: l, rfl⟩, rfl⟩
    | succ n =>
      simp only [takeUtf8Bytes] at h
      by_cases hle : charSize c ≤ n + 1
      · rw [if_pos hle] at h
        obtain ⟨t', ht', rfl⟩ := Option.map_eq_some'.mp h
        obtain ⟨⟨rest, hrest⟩, hlen⟩ := ih _ _ ht'
        refine ⟨⟨rest, by simp [hrest]⟩, ?_⟩
        rw [utf8Len_cons, hlen]
        omega
      · rw [if_neg hle] at h
        exact absurd h (by simp)

/-- On all-ASCII input the byte-slice is the character-count `take`. -/
theorem takeUtf8Bytes_ascii :
    ∀ (l : List Char) (n : Nat), (∀ c ∈ l, charSize c = 1) →
      takeUtf8Bytes l n =
        (if n ≤ l.length then some (l.take n) else none) := by
  intro l
  induction l with
  | nil =>
    intro n _
    cases n with
    | zero => simp [takeUtf8Bytes]
    | succ n => simp [takeUtf8Bytes]
  | cons c l ih =>
    intro n hascii
    cases n with
    | zero => simp [takeUtf8Bytes]
    | succ n =>
      have hc : charSize c = 1 := hascii c (by simp)
      have hrest : ∀ x ∈ l, charSize x = 1 := by
        intro x hx
        exact hascii x (by simp [hx])
      simp only [takeUtf8Bytes, hc]
      rw [if_pos (by omega)]
      have : n + 1 - 1 = n := by omega
      rw [this, ih n hrest]
      by_cases hn : n ≤ l.length
      · rw [if_pos hn, if_pos (by simpa using Nat.succ_le_succ hn)]
        simp
      · rw [if_neg hn, if_neg (by simp only [List.length_cons]; omega)]
        rfl

/-- All-ASCII input has as many bytes as characters. -/
theorem utf8Len_ascii :
    ∀ l : List Char, (∀ c ∈ l, charSize c = 1) →
      utf8Len l = l.length := by
  intro l
  induction l with
  | nil => intro; rfl
  | cons c l ih =>
    intro h
    rw [utf8Len_cons, h c (by simp), ih fun x hx => h x (by simp [hx])]
    simp only [List.length_cons]
    omega

/-- C5 (amended).  Evidence truncation is measured in UTF-8 bytes, not
characters: evidence of at most `MAX_EVIDENCE_LENGTH` bytes is unchanged;
longer evidence is cut to the character sequence spanning exactly its
first `MAX_EVIDENCE_LENGTH` bytes, the cut being a front segment of the
original; on all-ASCII evidence (where bytes and characters coincide)
more than 200 characters truncate to the first 200; all successful
truncations leave at most `MAX_EVIDENCE_LENGTH` bytes. -/
theorem c5_truncation_by_bytes :
    (∀ s : String, utf8Len s.data ≤ MAX_EVIDENCE_LENGTH →
      truncEvidence s = some s) ∧
    (∀ s t : String, truncEvidence s = some t →
      ∃ rest, s.data = t.data ++ rest) ∧
    (∀ s t : String, MAX_EVIDENCE_LENGTH < utf8Len s.data →
      truncEvidence s = some t →
      utf8Len t.data = MAX_EVIDENCE_LENGTH) ∧
    (∀ s : String, (∀ c ∈ s.data, charSize c = 1) →
      MAX_EVIDENCE_LENGTH < s.data.length →
      truncEvidence s =
        some (String.mk (s.data.take MAX_EVIDENCE_LENGTH))) ∧
    (∀ s t : String, truncEvidence s = some t →
      utf8Len t.data ≤ MAX_EVIDENCE_LENGTH) := by
  have h1 : ∀ s : String, utf8Len s.data ≤ MAX_EVIDENCE_LENGTH →
      truncEvidence s = some s := by
    intro s h
    unfold truncEvidence
    rw [if_neg (by omega)]
  have h2 : ∀ s t : String, truncEvidence s = some t →
      ∃ rest, s.data = t.data ++ rest := by
    intro s t h
    unfold truncEvidence at h
    by_cases hlen : MAX_EVIDENCE_LENGTH < utf8Len s.data
    · rw [if_pos hlen] at h
      obtain ⟨t', ht', rfl⟩ := Option.map_eq_some'.mp h
      obtain ⟨⟨rest, hrest⟩, _⟩ := takeUtf8Bytes_sound _ _ _ ht'
      exact ⟨rest, hrest⟩
    · rw [if_neg hlen] at h
      obtain rfl := Option.some.inj h
      exact ⟨[], by simp⟩
  have h3 : ∀ s t : String, MAX_EVIDENCE_LENGTH < utf8Len s.data →
      truncEvidence s = some t →
      utf8Len t.data = MAX_EVIDENCE_LENGTH := by
    intro s t hlen h
    unfold truncEvidence at h
    rw [if_pos hlen] at h
    obtain ⟨t', ht', rfl⟩ := Option.map_eq_some'.mp h
    exact (takeUtf8Bytes_sound _ _ _ ht').2
  refine ⟨h1, h2, h3, ?_, ?_⟩
  · intro s hascii hlen
    unfold truncEvidence
    have hbytes : utf8Len s.data = s.data.length := utf8Len_ascii _ hascii
    rw [if_pos (by omega), takeUtf8Bytes_ascii _ _ hascii,
      if_pos (by omega)]
    rfl
  · intro s t h
    by_cases hlen : MAX_EVIDENCE_LENGTH < utf8Len s.data
    · exact le_of_eq (h3 s t hlen h)
    · have := h1 s (by omega)
      rw [this] at h
      obtain rfl := Option.some.inj h
      omega

/-- Witness for C5: 201 ASCII characters truncate to the first 200. -/
theorem c5_witness :
    truncEvidence (String.mk (List.replicate 201 'a')) =
      some (String.mk
        ((List.replicate 201 'a').take MAX_EVIDENCE_LENGTH)) :=
  c5_truncation_by_bytes.2.2.2.1 (String.mk (List.replicate 201 'a'))
    (by decide) (by decide)

/-- Counterexample to C5 as stated: evidence of exactly 200 characters is
not left unchanged when the characters are two-byte — the code truncates
by bytes, not characters. -/
theorem c5_counterexample :
    (List.replicate 200 'é').length = 200 ∧
      truncEvidence (String.mk (List.replicate 200 'é')) ≠
        some (String.mk (List.replicate 200 'é')) := by
  decide

/-! ## Canonical JSON serialization (`core/src/hash.rs`)

`hash_concerns` serializes a `Vec<NormalizedConcern>` with
`serde_json::to_string`: a compact JSON array, each object's fields in
declaration order (`category`, `severity`, `description`, `evidence`),
no whitespace, strings escaped as serde_json escapes them (the two
characters quote and backslash, and control characters below 0x20, the
five with short escapes as such and the rest as `\u00XX`). -/

/-- The snake_case wire literal of a category, as produced by
`serde_json::to_string(&c.category)` with the quotes trimmed. -/
def categoryWire : ConcernCategory → String
  | ConcernCategory.PromptInjection => "prompt_injection"
  | ConcernCategory.ValueMisalignment => "value_misalignment"
  | ConcernCategory.AutonomyViolation => "autonomy_violation"
  | ConcernCategory.ReasoningCorruption => "reasoning_corruption"
  | ConcernCategory.DeceptiveReasoning => "deceptive_reasoning"
  | ConcernCategory.UndeclaredIntent => "undeclared_intent"

/-- The lowercase wire literal of a severity, as produced by
`serde_json::to_string(&c.severity)` with the quotes trimmed. -/
def severityWire : Severity → String
  | Severity.Low => "low"
  | Severity.Medium => "medium"
  | Severity.High => "high"
  | Severity.Critical => "critical"

/-- The lowercase hexadecimal digit of `n` (values 16 and above cannot
occur at the call sites; they fall back to the digit zero). -/
def hexDigit (n : Nat) : Char :=
  if n < 10 then Char.ofNat (48 + n)
  else if n < 16 then Char.ofNat (87 + n)
  else '0'

/-- serde_json's escaping of one character inside a JSON string. -/
def escapeChar (c : Char) : List Char :=
  if c = '"' then ['\\', '"']
  else if c = '\\' then ['\\', '\\']
  else if c.toNat < 32 then
    if c.toNat = 8 then ['\\', 'b']
    else if c.toNat = 9 then ['\\', 't']
    else if c.toNat = 10 then ['\\', 'n']
    else if c.toNat = 12 then ['\\', 'f']
    else if c.toNat = 13 then ['\\', 'r']
    else ['\\', 'u', '0', '0', hexDigit (c.toNat / 16),
      hexDigit (c.toNat % 16)]
  else [c]

/-- A JSON string literal: quote, escaped characters, quote. -/
def jsonString (s : String) : String :=
  "\"" ++ String.mk (cflat escapeChar s.data) ++ "\""

/-- `NormalizedConcern` from `hash.rs` lines 10-16: the concern with
category and severity replaced by their wire literals and the evidence
truncated. -/
structure NormalizedConcern where
  category : String
  severity : String
  description : String
  evidence : String
deriving DecidableEq, Repr

/-- serde_json serialization of one `NormalizedConcern`: the four fields
in declaration order, compact. -/
def serializeNormalizedConcern (n : NormalizedConcern) : String :=
  "\x7b\"category\":" ++ jsonString n.category ++
    ",\"severity\":" ++ jsonString n.severity ++
    ",\"description\":" ++ jsonString n.description ++
    ",\"evidence\":" ++ jsonString n.evidence ++ "\x7d"

/-- serde_json serialization of the normalized concerns vector: a compact
JSON array. -/
def serializeNormalized (ns : List NormalizedConcern) : String :=
  "[" ++ String.intercalate "," (ns.map serializeNormalizedConcern) ++ "]"

/-- The normalization step of `hash_concerns` (`hash.rs` lines 26-52):
truncate the evidence (a byte slice that can panic, hence `Option`) and
replace category and severity by their wire literals. -/
def normalizeConcern (c : Concern) : Option NormalizedConcern :=
  (truncEvidence c.evidence).map fun ev =>
    NormalizedConcern.mk (categoryWire c.category)
      (severityWire c.severity) c.description ev

/-- Normalization of the whole list, in input order. -/
def normalizeConcerns : List Concern → Option (List NormalizedConcern)
  | [] => some []
  | c :: cs => do
    let n ← normalizeConcern c
    let ns ← normalizeConcerns cs
    pure (n :: ns)

/-! ## SHA-256 (the `sha2` crate as used by `hash.rs`)

FIPS 180-4 over byte sequences, on `Nat` reduced modulo 2^32. -/

/-- Reduction modulo 2^32. -/
def w32 (n : Nat) : Nat := n % 4294967296

/-- Right rotation of a 32-bit word by `k` bits. -/
def rotr (k x : Nat) : Nat := (x >>> k) ||| w32 (x <<< (32 - k))

/-- SHA-256 `Ch`. -/
def shaCh (x y z : Nat) : Nat :=
  (x &&& y) ^^^ ((x ^^^ 4294967295) &&& z)

/-- SHA-256 `Maj`. -/
def shaMaj (x y z : Nat) : Nat :=
  (x &&& y) ^^^ (x &&& z) ^^^ (y &&& z)

/-- SHA-256 `Σ0`. -/
def bigSigma0 (x : Nat) : Nat := rotr 2 x ^^^ rotr 13 x ^^^ rotr 22 x

/-- SHA-256 `Σ1`. -/
def bigSigma1 (x : Nat) : Nat := rotr 6 x ^^^ rotr 11 x ^^^ rotr 25 x

/-- SHA-256 `σ0`. -/
def smallSigma0 (x : Nat) : Nat := rotr 7 x ^^^ rotr 18 x ^^^ (x >>> 3)

/-- SHA-256 `σ1`. -/
def smallSigma1 (x : Nat) : Nat := rotr 17 x ^^^ rotr 19 x ^^^ (x >>> 10)

/-- The SHA-256 round constants, in decimal (the first 32 bits of the
fractional parts of the cube roots of the first 64 primes). -/
def shaK : List Nat :=
  [1116352408, 1899447441, 3049323471, 3921009573,
   961987163, 1508970993, 2453635748, 2870763221,
   3624381080, 310598401, 607225278, 1426881987,
   1925078388, 2162078206, 2614888103, 3248222580,
   3835390401, 4022224774, 264347078, 604807628,
   770255983, 1249150122, 1555081692, 1996064986,
   2554220882, 2821834349, 2952996808, 3210313671,
   3336571891, 3584528711, 113926993, 338241895,
   666307205, 773529912, 1294757372, 1396182291,
   1695183700, 1986661051, 2177026350, 2456956037,
   2730485921, 2820302411, 3259730800, 3345764771,
   3516065817, 3600352804, 4094571909, 275423344,
   430227734, 506948616, 659060556, 883997877,
   958139571, 1322822218, 1537002063, 1747873779,
   1955562222, 2024104815, 2227730452, 2361852424,
   2428436474, 2756734187, 3204031479, 3329325298]

/-- The eight working words of the SHA-256 state. -/
structure Hash8 where
  a : Nat
  b : Nat
  c : Nat
  d : Nat
  e : Nat
  f : Nat
  g : Nat
  h : Nat

/-- The SHA-256 initial hash value, in decimal (the first 32 bits of the
fractional parts of the square roots of the first 8 primes). -/
def shaInit : Hash8 :=
  Hash8.mk 1779033703 3144134277 1013904242 2773480762
    1359893119 2600822924 528734635 1541459225

/-- One compression round; `kw` is the pair (round constant, schedule
word). -/
def shaRound (s : Hash8) (kw : Nat × Nat) : Hash8 :=
  let t1 := w32 (s.h + bigSigma1 s.e + shaCh s.e s.f s.g + kw.1 + kw.2)
  let t2 := w32 (bigSigma0 s.a + shaMaj s.a s.b s.c)
  Hash8.mk (w32 (t1 + t2)) s.a s.b s.c (w32 (s.d + t1)) s.e s.f s.g

/-- The first sixteen schedule words of a 64-byte block (big-endian). -/
def blockWords (blk : List Nat) : List Nat :=
  (List.range 16).map fun i =>
    (blk.getD (4 * i) 0) * 16777216 + (blk.getD (4 * i + 1) 0) * 65536 +
      (blk.getD (4 * i + 2) 0) * 256 + blk.getD (4 * i + 3) 0

/-- Extend the schedule by one word. -/
def scheduleStep (w : List Nat) : List Nat :=
  let t := w.length
  w ++ [w32 (smallSigma1 (w.getD (t - 2) 0) + w.getD (t - 7) 0 +
    smallSigma0 (w.getD (t - 15) 0) + w.getD (t - 16) 0)]

/-- The 64-word message schedule of a block. -/
def schedule (blk : List Nat) : List Nat :=
  (List.range 48).foldl (fun w _ => scheduleStep w) (blockWords blk)

/-- Compress one 64-byte block into the state. -/
def compress (s : Hash8) (blk : List Nat) : Hash8 :=
  let t := (shaK.zip (schedule blk)).foldl shaRound s
  Hash8.mk (w32 (s.a + t.a)) (w32 (s.b + t.b)) (w32 (s.c + t.c))
    (w32 (s.d + t.d)) (w32 (s.e + t.e)) (w32 (s.f + t.f))
    (w32 (s.g + t.g)) (w32 (s.h + t.h))

/-- SHA-256 padding: append 0x80, zeros to 56 mod 64, and the big-endian
64-bit bit length. -/
def padMessage (ms : List Nat) : List Nat :=
  let len := ms.length
  let zeros := (119 - len % 64) % 64
  let bits := 8 * len
  ms ++ [128] ++ List.replicate zeros 0 ++
    [bits >>> 56 % 256, bits >>> 48 % 256, bits >>> 40 % 256,
     bits >>> 32 % 256, bits >>> 24 % 256, bits >>> 16 % 256,
     bits >>> 8 % 256, bits % 256]

/-- The four big-endian bytes of a 32-bit word. -/
def wordBE (w : Nat) : List Nat :=
  [w >>> 24 % 256, w >>> 16 % 256, w >>> 8 % 256, w % 256]

/-- The 32 digest bytes of a final state. -/
def digestBytes (s : Hash8) : List Nat :=
  wordBE s.a ++ wordBE s.b ++ wordBE s.c ++ wordBE s.d ++
    wordBE s.e ++ wordBE s.f ++ wordBE s.g ++ wordBE s.h

/-- SHA-256 of a byte sequence. -/
def sha256 (ms : List Nat) : List Nat :=
  let padded := padMessage ms
  let blocks := (List.range (padded.length / 64)).map fun i =>
    (padded.drop (64 * i)).take 64
  digestBytes (blocks.foldl compress shaInit)

/-- Lowercase hex encoding of a byte sequence (the `hex` crate's
`encode`). -/
def hexEncode (bs : List Nat) : String :=
  String.mk (cflat (fun b => [hexDigit (b / 16), hexDigit (b % 16)]) bs)

/-- The UTF-8 bytes of a string (Rust's `str::as_bytes`). -/
def strUtf8 (s : String) : List Nat := cflat charUtf8 s.data

/-- `hash_concerns` (`hash.rs` lines 25-59): normalize, serialize as
compact JSON, SHA-256 the UTF-8 bytes, hex-encode.  `none` models the
truncation panic. -/
def hash_concerns (concerns : List Concern) : Option String :=
  (normalizeConcerns concerns).map fun ns =>
    hexEncode (sha256 (strUtf8 (serializeNormalized ns)))

/-- The sixteen lowercase hexadecimal digits. -/
def hexDigits : List Char := "0123456789abcdef".data

theorem hexDigit_mem (n : Nat) : hexDigit n ∈ hexDigits := by
  by_cases h10 : n < 10
  · interval_cases n <;> decide
  · by_cases h16 : n < 16
    · have : 10 ≤ n := by omega
      interval_cases n <;> decide
    · simp only [hexDigit, if_neg h10, if_neg h16]
      decide

theorem hexChars_length (bs : List Nat) :
    (cflat (fun b => [hexDigit (b / 16), hexDigit (b % 16)]) bs).length =
      2 * bs.length := by
  induction bs with
  | nil => rfl
  | cons b bs ih =>
    simp only [cflat, List.length_append, List.length_cons,
      List.length_nil, List.length_cons, ih]
    omega

theorem hexEncode_length (bs : List Nat) :
    (hexEncode bs).length = 2 * bs.length :=
  hexChars_length bs

theorem hexChars_mem (bs : List Nat) :
    ∀ c ∈ cflat (fun b => [hexDigit (b / 16), hexDigit (b % 16)]) bs,
      c ∈ hexDigits := by
  induction bs with
  | nil => intro c hc; simp [cflat] at hc
  | cons b bs ih =>
    intro c hc
    simp only [cflat, List.mem_append, List.mem_cons, List.not_mem_nil,
      or_false] at hc
    rcases hc with (h | h) | h
    · exact h ▸ hexDigit_mem _
    · exact h ▸ hexDigit_mem _
    · exact ih c h

theorem hexEncode_mem (bs : List Nat) :
    ∀ c ∈ (hexEncode bs).data, c ∈ hexDigits :=
  hexChars_mem bs

theorem sha256_length (ms : List Nat) : (sha256 ms).length = 32 := by
  simp [sha256, digestBytes, wordBE]

/-- C6 (amended).  On every concern list whose evidence truncation
succeeds, `hash_concerns` is deterministic and returns exactly the
lowercase hex encoding, 64 characters long, of the SHA-256 digest of the
UTF-8 bytes of the canonical compact JSON array of the normalized
concerns (fields in order category, severity, description, evidence);
the empty list serializes to the two-byte string `[]` and hashes to the
SHA-256 digest of that string. -/
theorem c6_hash_concerns_canonical :
    (∀ cs ns, normalizeConcerns cs = some ns →
      hash_concerns cs =
        some (hexEncode (sha256 (strUtf8 (serializeNormalized ns))))) ∧
    (∀ cs cs' : List Concern, cs = cs' →
      hash_concerns cs = hash_concerns cs') ∧
    (∀ cs s, hash_concerns cs = some s →
      s.length = 64 ∧ ∀ c ∈ s.data, c ∈ hexDigits) ∧
    serializeNormalized [] = "[]" ∧
    hash_concerns [] =
      some "4f53cda18c2baa0c0354bb5f9a3ecbe5ed12ab4d8e11ba873c2f11161202b945" := by
  refine ⟨?_, ?_, ?_, by decide, by decide⟩
  · intro cs ns h
    simp [hash_concerns, h]
  · intro cs cs' h
    rw [h]
  · intro cs s h
    simp only [hash_concerns] at h
    cases hns : normalizeConcerns cs with
    | none => rw [hns] at h; simp at h
    | some ns =>
      rw [hns] at h
      obtain rfl := Option.some.inj h.symm
      refine ⟨?_, hexEncode_mem _⟩
      rw [hexEncode_length, sha256_length]

/-- Witness for C6 at the empty list. -/
theorem c6_witness :
    hash_concerns [] =
      some (hexEncode (sha256 (strUtf8 (serializeNormalized [])))) :=
  c6_hash_concerns_canonical.1 [] [] rfl

/-- Counterexample to C6 as stated: on a concern whose evidence has 201
UTF-8 bytes with byte 200 inside a character, `hash_concerns` does not
return a digest at all (the Rust code panics in the byte slice). -/
theorem c6_counterexample :
    hash_concerns
        [Concern.mk ConcernCategory.PromptInjection Severity.Low "d"
          (String.mk ('b' :: List.replicate 100 'é'))] = none := by
  decide

/-- C7.  The failing input for the totality claim: evidence of one ASCII
character followed by 100 two-byte characters has 201 UTF-8 bytes, so the
code takes the byte slice `[..200]`, whose end falls inside the 101st
character: Rust's `&s[..200]` panics there, and the model returns `none`
for both the truncation and `hash_concerns`. -/
theorem c7_truncation_panic :
    truncEvidence (String.mk ('a' :: List.replicate 100 'é')) = none ∧
      hash_concerns
        [Concern.mk ConcernCategory.PromptInjection Severity.High "d"
          (String.mk ('a' :: List.replicate 100 'é'))] = none := by
  decide

/-! ## Guest pipeline (`methods/guest/src/main.rs`)

The guest reads a `GuestInput`, extracts the JSON substring, parses it
into an `AnalysisResponse` (aborting the proof on failure), truncates
evidence, re-derives verdict and action, fingerprints the concerns and
commits a `GuestOutput`.  JSON parsing is performed by the external
`serde_json` crate; the pipeline below takes the parsed
`AnalysisResponse` as an argument, so a theorem about it quantifies over
whatever the parse produced. -/

/-- `extract_json` (`main.rs` lines 67-74): the substring from the first
opening brace to the last closing brace, inclusive; the input unchanged
when either is absent or they cross. -/
def extract_json (input : String) : String :=
  let cs := input.data
  match cs.findIdx? fun c => c = '\x7b' with
  | none => input
  | some s =>
    match cs.reverse.findIdx? fun c => c = '\x7d' with
    | none => input
    | some rres =>
      let e := cs.length - 1 - rres
      if s ≤ e then String.mk ((cs.drop s).take (e - s + 1)) else input

/-- Step 4 of the guest (`main.rs` lines 36-40): truncate each concern's
evidence in place; `none` models the slice panic. -/
def truncConcerns : List Concern → Option (List Concern)
  | [] => some []
  | c :: cs => do
    let ev ← truncEvidence c.evidence
    let rest ← truncConcerns cs
    pure (Concern.mk c.category c.severity c.description ev :: rest)

/-- Steps 4-8 of the guest (`main.rs` lines 24-63) after the parse:
truncate evidence, re-derive the verdict from the concerns (the parsed
`verdict` string is never read), map it to an action, fingerprint, and
assemble the committed `GuestOutput` with the four pass-through fields
copied from the input. -/
def guestPipeline (input : GuestInput) (response : AnalysisResponse) :
    Option GuestOutput :=
  match truncConcerns response.concerns with
  | none => none
  | some concerns =>
    match hash_concerns concerns with
    | none => none
    | some concernsHash =>
      some (GuestOutput.mk (derive_verdict concerns)
        (map_verdict_to_action (derive_verdict concerns) concerns)
        concernsHash input.thinking_hash input.card_hash
        input.values_hash input.model)

/-- C3.  The committed output is independent of the LLM's stated verdict:
two parsed responses that agree on concerns, confidence and reasoning
summary — their `verdict` strings arbitrary — together with inputs that
agree on the four pass-through fields, commit identical outputs. -/
theorem c3_output_independent_of_stated_verdict
    (i₁ i₂ : GuestInput) (r₁ r₂ : AnalysisResponse)
    (hc : r₁.concerns = r₂.concerns)
    (hconf : r₁.confidence = r₂.confidence)
    (hsum : r₁.reasoning_summary = r₂.reasoning_summary)
    (ht : i₁.thinking_hash = i₂.thinking_hash)
    (hcard : i₁.card_hash = i₂.card_hash)
    (hv : i₁.values_hash = i₂.values_hash)
    (hm : i₁.model = i₂.model) :
    guestPipeline i₁ r₁ = guestPipeline i₂ r₂ := by
  simp only [guestPipeline, hc, ht, hcard, hv, hm]

/-- Witness for C3: two responses differing exactly in the stated
verdict, over inputs differing in the raw JSON, commit the same output. -/
theorem c3_witness :
    guestPipeline
        (GuestInput.mk "j1" "th" "ch" "vh" "m")
        (AnalysisResponse.mk "clear"
          [Concern.mk ConcernCategory.PromptInjection Severity.Critical
            "inj" "ev"] 0.9 "sum") =
      guestPipeline
        (GuestInput.mk "j2" "th" "ch" "vh" "m")
        (AnalysisResponse.mk "boundary_violation"
          [Concern.mk ConcernCategory.PromptInjection Severity.Critical
            "inj" "ev"] 0.9 "sum") :=
  c3_output_independent_of_stated_verdict _ _ _ _ rfl rfl rfl rfl rfl rfl
    rfl

/-- C4.  Whenever the guest pipeline completes, the committed output's
`thinking_hash`, `card_hash`, `values_hash` and `model` equal the
corresponding input fields. -/
theorem c4_passthrough_fields (i : GuestInput) (r : AnalysisResponse)
    (out : GuestOutput) (h : guestPipeline i r = some out) :
    out.thinking_hash = i.thinking_hash ∧
      out.card_hash = i.card_hash ∧
      out.values_hash = i.values_hash ∧
      out.model = i.model := by
  unfold guestPipeline at h
  cases htr : truncConcerns r.concerns with
  | none => rw [htr] at h; simp at h
  | some concerns =>
    rw [htr] at h
    dsimp only at h
    cases hh : hash_concerns concerns with
    | none => rw [hh] at h; simp at h
    | some digest =>
      rw [hh] at h
      dsimp only at h
      obtain rfl := Option.some.inj h.symm
      exact ⟨rfl, rfl, rfl, rfl⟩

/-- Witness for C4 at a concrete parsed response with no concerns. -/
theorem c4_witness :
    guestPipeline (GuestInput.mk "j" "th" "ch" "vh" "m")
        (AnalysisResponse.mk "clear" [] 1.0 "s") =
      some (GuestOutput.mk Verdict.Clear Action.Continue
        "4f53cda18c2baa0c0354bb5f9a3ecbe5ed12ab4d8e11ba873c2f11161202b945"
        "th" "ch" "vh" "m") ∧
    "th" = "th" ∧ "ch" = "ch" ∧ "vh" = "vh" ∧ "m" = "m" :=
  ⟨by decide,
    c4_passthrough_fields (GuestInput.mk "j" "th" "ch" "vh" "m")
      (AnalysisResponse.mk "clear" [] 1.0 "s")
      (GuestOutput.mk Verdict.Clear Action.Continue
        "4f53cda18c2baa0c0354bb5f9a3ecbe5ed12ab4d8e11ba873c2f11161202b945"
        "th" "ch" "vh" "m") (by decide)⟩

/-! ## Proving service authentication (`host/src/server.rs`)

HTTP is modelled at the level the handlers observe: the `X-Prover-Key`
header as an `Option String` (the `http` crate's header decoding is
external; `key.to_str().unwrap_or("")` is the identity on the strings we
model), and a handler's result as the pair of HTTP status code and
response body.  Axum turns `Err(StatusCode)` into a response with that
status and `Ok(Json(body))` — or a plain `Json(body)` return type — into
status 200 with the JSON body. -/

/-- `ProofRequest` (`server.rs` lines 32-40). -/
structure ProofRequest where
  proof_id : String
  checkpoint_id : String
  analysis_json : String
  thinking_hash : String
  card_hash : String
  values_hash : String
  model : String

/-- `ProofResponse` (`server.rs` lines 44-47). -/
structure ProofResponse where
  proof_id : String
  status : String
deriving DecidableEq, Repr

/-- `VerifyResponse` (`server.rs` lines 68-74). -/
structure VerifyResponse where
  valid : Bool
  verdict : Option String
  action : Option String
  concerns_hash : Option String
  error : Option String
deriving DecidableEq, Repr

/-- `check_auth` (`server.rs` lines 95-104): when a prover key is
configured, the request passes only when the header is present and its
value equals the key; with no key configured every request passes. -/
def check_auth (xProverKey : Option String) (proverKey : Option String) :
    Except Nat Unit :=
  match proverKey with
  | some expected =>
    match xProverKey with
    | some key => if key = expected then Except.ok () else Except.error 401
    | none => Except.error 401
  | none => Except.ok ()

/-- The observable response of `handle_prove` (`server.rs` lines
107-205): on auth failure the handler propagates `Err(401)` (status 401,
no body); on success it immediately returns status 200 with
`{proof_id, status: "proving"}`.  The database update and the spawned
proving task are I/O effects outside the model. -/
def handle_prove (proverKey : Option String) (xProverKey : Option String)
    (req : ProofRequest) : Nat × Option ProofResponse :=
  match check_auth xProverKey proverKey with
  | Except.error code => (code, none)
  | Except.ok _ => (200, some (ProofResponse.mk req.proof_id "proving"))

/-- The `VerifyResponse` that `handle_verify` builds on auth failure
(`server.rs` lines 238-246). -/
def unauthorizedVerifyResponse : VerifyResponse :=
  VerifyResponse.mk false none none none (some "Unauthorized")

/-- The observable response of `handle_verify` (`server.rs` lines
233-291): the handler's return type is a plain JSON body, so every
response — auth failure included — carries status 200; `rest` is the
body produced by the receipt decoding and verification path that runs
when authentication passes (external `base64` and `risc0` crates). -/
def handle_verify (proverKey : Option String)
    (xProverKey : Option String) (rest : VerifyResponse) :
    Nat × VerifyResponse :=
  match check_auth xProverKey proverKey with
  | Except.error _ => (200, unauthorizedVerifyResponse)
  | Except.ok _ => (200, rest)

/-- C9 (amended).  With a prover key configured and the `X-Prover-Key`
header missing or different from the key, `POST /prove` responds with
HTTP status 401; `POST /prove/verify` responds with HTTP status 200 and
the JSON body `{valid: false, error: "Unauthorized"}` rather than a 401
status. -/
theorem c9_auth_gate (key : String) (xProverKey : Option String)
    (req : ProofRequest) (rest : VerifyResponse)
    (hmiss : ∀ v, xProverKey = some v → v ≠ key) :
    handle_prove (some key) xProverKey req = (401, none) ∧
      handle_verify (some key) xProverKey rest =
        (200, unauthorizedVerifyResponse) := by
  have hauth : check_auth xProverKey (some key) = Except.error 401 := by
    cases xProverKey with
    | none => rfl
    | some v =>
      simp only [check_auth]
      rw [if_neg (hmiss v rfl)]
  constructor
  · simp [handle_prove, hauth]
  · simp [handle_verify, hauth]

/-- Witness for C9: a concrete wrong key against a configured key. -/
theorem c9_witness :
    handle_prove (some "secret") (some "wrong")
        (ProofRequest.mk "p1" "c1" "{}" "t" "c" "v" "m") = (401, none) ∧
      handle_verify (some "secret") (some "wrong")
          (VerifyResponse.mk true none none none none) =
        (200, unauthorizedVerifyResponse) :=
  c9_auth_gate "secret" (some "wrong")
    (ProofRequest.mk "p1" "c1" "{}" "t" "c" "v" "m")
    (VerifyResponse.mk true none none none none)
    (by intro v hv; cases hv; decide)

/-- Counterexample to C9 as stated: on `POST /prove/verify` with a
configured key and a missing header, the response status is 200, not
401 — the body, not the status line, reports the auth failure. -/
theorem c9_counterexample :
    (handle_verify (some "secret") none
          (VerifyResponse.mk true none none none none)).1 = 200 ∧
      (handle_verify (some "secret") none
          (VerifyResponse.mk true none none none none)).1 ≠ 401 := by
  decide

/-! ## Guest image id: hex exchange form

`server.rs` lines 154-158 encode the configured image id — eight 32-bit
words — as `id.iter().flat_map(|w| w.to_le_bytes()).map(format 02x)`:
each word's four bytes in little-endian order, each byte as two
lowercase hex digits.  `wasm-verifier/src/lib.rs` lines 74-89 decode the
64-character form back to `[u32; 8]`. -/

/-- Rust's `u32::to_le_bytes` on a word below 2^32. -/
def toLeBytes (w : Nat) : List Nat :=
  [w % 256, w / 256 % 256, w / 65536 % 256, w / 16777216 % 256]

/-- Rust's `format!("{:02x}", b)` for a byte: two lowercase hex digits. -/
def byteHexChars (b : Nat) : List Char :=
  [hexDigit (b / 16), hexDigit (b % 16)]

/-- The image-id hex encoding of `handle_prove` and the retry loop. -/
def encodeImageId (ws : List Nat) : String :=
  String.mk (cflat (fun w => cflat byteHexChars (toLeBytes w)) ws)

/-- Rust's `char::to_digit(16)`, as used through `u8::from_str_radix`:
decimal digits, lowercase and uppercase hex letters. -/
def hexVal (c : Char) : Option Nat :=
  if '0' ≤ c ∧ c ≤ '9' then some (c.toNat - 48)
  else if 'a' ≤ c ∧ c ≤ 'f' then some (c.toNat - 87)
  else if 'A' ≤ c ∧ c ≤ 'F' then some (c.toNat - 55)
  else none

/-- Rust's `u8::from_str_radix(pair, 16)` on a two-character slice: an
optional sign is accepted ("+f" is 15, "-0" is 0, a negative nonzero
value overflows `u8`), otherwise two hex digits. -/
def parseHexPair (c₁ c₂ : Char) : Option Nat :=
  if c₁ = '+' then hexVal c₂
  else if c₁ = '-' then
    match hexVal c₂ with
    | some 0 => some 0
    | _ => none
  else
    match hexVal c₁, hexVal c₂ with
    | some v₁, some v₂ => some (16 * v₁ + v₂)
    | _, _ => none

/-- The byte-parsing loop of `decode_image_id`: each consecutive pair of
hex characters becomes one byte; any failure aborts (`collect` over
`Result`, then `.ok()?`). -/
def parseHexBytes : List Char → Option (List Nat)
  | [] => some []
  | c₁ :: c₂ :: rest =>
    match parseHexPair c₁ c₂ with
    | none => none
    | some b =>
      match parseHexBytes rest with
      | none => none
      | some bs => some (b :: bs)
  | [_] => none

/-- `chunks_exact(4)` + `u32::from_le_bytes`: four little-endian bytes
per word; a remainder shorter than four bytes is dropped. -/
def wordsFromLe : List Nat → List Nat
  | b₀ :: b₁ :: b₂ :: b₃ :: rest =>
    (b₀ + 256 * b₁ + 65536 * b₂ + 16777216 * b₃) :: wordsFromLe rest
  | _ => []

/-- `decode_image_id` (`wasm-verifier/src/lib.rs` lines 74-89): length
check, 32 parsed bytes, eight little-endian words.  The source checks the
byte length and slices byte pairs; on the ASCII hex strings exchanged
here bytes and characters coincide. -/
def decode_image_id (s : String) : Option (List Nat) :=
  if s.length ≠ 64 then none
  else (parseHexBytes s.data).map wordsFromLe

theorem hexVal_hexDigit (n : Nat) (h : n < 16) :
    hexVal (hexDigit n) = some n := by
  interval_cases n <;> decide

theorem wordHex_length (w : Nat) :
    (cflat byteHexChars (toLeBytes w)).length = 8 := by
  simp [cflat, byteHexChars, toLeBytes]

theorem encode_data_length (ws : List Nat) :
    (cflat (fun w => cflat byteHexChars (toLeBytes w)) ws).length =
      8 * ws.length := by
  induction ws with
  | nil => rfl
  | cons w ws ih =>
    show (cflat byteHexChars (toLeBytes w) ++
        cflat (fun w => cflat byteHexChars (toLeBytes w)) ws).length = _
    simp only [List.length_append, wordHex_length, ih, List.length_cons]
    omega

theorem cflat_append {α β : Type} (f : α → List β) (xs ys : List α) :
    cflat f (xs ++ ys) = cflat f xs ++ cflat f ys := by
  induction xs with
  | nil => rfl
  | cons x xs ih => simp [cflat, ih]

theorem cflat_comp {α β γ : Type} (f : α → List β) (g : β → List γ) :
    ∀ l : List α,
      cflat (fun a => cflat g (f a)) l = cflat g (cflat f l) := by
  intro l
  induction l with
  | nil => rfl
  | cons a l ih => simp [cflat, cflat_append, ih]

theorem parseHexPair_bytes (b : Nat) (hb : b < 256) :
    parseHexPair (hexDigit (b / 16)) (hexDigit (b % 16)) = some b := by
  have h1 : b / 16 < 16 := by omega
  have h2 : b % 16 < 16 := by omega
  have hsigns : ∀ c ∈ hexDigits, c ≠ '+' ∧ c ≠ '-' := by decide
  have hns := hsigns _ (hexDigit_mem (b / 16))
  unfold parseHexPair
  rw [if_neg hns.1, if_neg hns.2, hexVal_hexDigit _ h1,
    hexVal_hexDigit _ h2]
  dsimp only
  have : 16 * (b / 16) + b % 16 = b := by omega
  rw [this]

theorem parseHexBytes_cflat :
    ∀ bs : List Nat, (∀ b ∈ bs, b < 256) →
      parseHexBytes (cflat byteHexChars bs) = some bs := by
  intro bs
  induction bs with
  | nil => intro; rfl
  | cons b bs ih =>
    intro hall
    have hb : b < 256 := hall b (by simp)
    have htail : ∀ x ∈ bs, x < 256 := fun x hx => hall x (by simp [hx])
    show parseHexBytes
        (hexDigit (b / 16) :: hexDigit (b % 16) ::
          cflat byteHexChars bs) = some (b :: bs)
    simp [parseHexBytes, parseHexPair_bytes b hb, ih htail]

theorem wordsFromLe_cflat :
    ∀ ws : List Nat, (∀ w ∈ ws, w < 4294967296) →
      wordsFromLe (cflat toLeBytes ws) = ws := by
  intro ws
  induction ws with
  | nil => intro; rfl
  | cons w ws ih =>
    intro hall
    have hw : w < 4294967296 := hall w (by simp)
    have htail : ∀ x ∈ ws, x < 4294967296 :=
      fun x hx => hall x (by simp [hx])
    show wordsFromLe
        (w % 256 :: w / 256 % 256 :: w / 65536 % 256 ::
          w / 16777216 % 256 :: cflat toLeBytes ws) = w :: ws
    rw [wordsFromLe, ih htail]
    have : w % 256 + 256 * (w / 256 % 256) + 65536 * (w / 65536 % 256) +
        16777216 * (w / 16777216 % 256) = w := by omega
    rw [this]

/-- Every byte emitted by `to_le_bytes` is below 256. -/
theorem cflat_toLeBytes_bound :
    ∀ ws : List Nat, ∀ b ∈ cflat toLeBytes ws, b < 256 := by
  intro ws
  induction ws with
  | nil => intro b hb; simp [cflat] at hb
  | cons w ws ih =>
    intro b hb
    simp only [cflat, toLeBytes, List.mem_append, List.mem_cons,
      List.not_mem_nil, or_false] at hb
    rcases hb with (rfl | rfl | rfl | rfl) | h
    · omega
    · omega
    · omega
    · omega
    · exact ih b h

/-- C10.  The image-id hex exchange form round-trips: encoding eight
32-bit words as the proving service does (little-endian bytes per word,
lowercase hex) and decoding with the browser verifier's
`decode_image_id` returns the original words. -/
theorem c10_image_id_roundtrip (ws : List Nat) (hlen : ws.length = 8)
    (hbound : ∀ w ∈ ws, w < 4294967296) :
    decode_image_id (encodeImageId ws) = some ws := by
  unfold decode_image_id
  have hslen : (encodeImageId ws).length = 64 := by
    show (cflat (fun w => cflat byteHexChars (toLeBytes w)) ws).length =
      64
    rw [encode_data_length, hlen]
  rw [if_neg (by omega)]
  show (parseHexBytes
      (cflat (fun w => cflat byteHexChars (toLeBytes w)) ws)).map
      wordsFromLe = some ws
  rw [cflat_comp toLeBytes byteHexChars,
    parseHexBytes_cflat _ (cflat_toLeBytes_bound ws),
    Option.map_some', wordsFromLe_cflat _ hbound]

/-- Witness for C10 at a concrete image id. -/
theorem c10_witness :
    decode_image_id
        (encodeImageId
          [1, 2, 3, 4, 4294967295, 305419896, 0, 2271560481]) =
      some [1, 2, 3, 4, 4294967295, 305419896, 0, 2271560481] :=
  c10_image_id_roundtrip
    [1, 2, 3, 4, 4294967295, 305419896, 0, 2271560481]
    (by decide) (by decide)

end Smoltbot
